import Mathlib

/-!
Verification of the TaskAPI in-memory task store (`src/main.py`).

The Python module keeps two globals: `tasks : Dict[int, Dict]` (an
insertion-ordered mapping, as Python dicts are) and `task_id_counter`,
initialized to 1.  Four FastAPI handlers implement create/list/update/delete.
We embed the mapping as an association list in insertion order and the four
handlers as pure functions, with the fallible ones returning `Except`.
-/

namespace TaskAPI

/-- The stored record: the pydantic fields plus the `"id"` key that
`create_task` adds to the stored dict (`tasks[task_id_counter]["id"] = task_id_counter`). -/
structure TaskRecord where
  id : Nat
  title : String
  description : String
  completed : Bool
deriving DecidableEq, Repr

/-- The pydantic request model `Task(title, description, completed=False)`:
`completed` may be omitted from the request body, which pydantic fills with
the default `False` when `.dict()` is taken. -/
structure TaskIn where
  title : String
  description : String
  completed : Option Bool
deriving DecidableEq, Repr

/-- The `completed` value produced by `task.dict()`: the given value, or the
pydantic default `False` when omitted. -/
def TaskIn.completedVal (t : TaskIn) : Bool :=
  t.completed.getD false

/-- The module-level mutable state: the dict `tasks` (insertion-ordered
association list) and `task_id_counter`. -/
structure Store where
  tasks : List (Nat × TaskRecord)
  task_id_counter : Nat
deriving DecidableEq, Repr

/-- The state at process start: `tasks = {}`, `task_id_counter = 1`. -/
def Store.init : Store := ⟨[], 1⟩

/-- Python dict assignment `m[k] = v`: if `k` is present the value is replaced
in place (insertion position kept), otherwise the pair is appended at the end. -/
def dictInsert (m : List (Nat × TaskRecord)) (k : Nat) (v : TaskRecord) :
    List (Nat × TaskRecord) :=
  if m.any (fun p => p.1 == k) then
    m.map (fun p => if p.1 == k then (k, v) else p)
  else
    m ++ [(k, v)]

/-- Python dict lookup `m.get(k)` / membership test `k in m`. -/
def dictLookup (m : List (Nat × TaskRecord)) (k : Nat) : Option TaskRecord :=
  (m.find? (fun p => p.1 == k)).map (fun p => p.2)

/-- Python `m.pop(k)` (the removal part; the returned value is `dictLookup`). -/
def dictPop (m : List (Nat × TaskRecord)) (k : Nat) : List (Nat × TaskRecord) :=
  m.filter (fun p => p.1 != k)

/-- `create_task` (`src/main.py` lines 16-23): stores `task.dict()` under
`task_id_counter`, writes the `"id"` field, increments the counter, and
returns the stored record. -/
def create_task (s : Store) (task : TaskIn) : TaskRecord × Store :=
  let task_data : TaskRecord :=
    { id := s.task_id_counter
      title := task.title
      description := task.description
      completed := task.completedVal }
  (task_data,
   { tasks := dictInsert s.tasks s.task_id_counter task_data
     task_id_counter := s.task_id_counter + 1 })

/-- `get_tasks` (`src/main.py` lines 25-27): `list(tasks.values())`. -/
def get_tasks (s : Store) : List TaskRecord :=
  s.tasks.map (fun p => p.2)

/-- `update_task` (`src/main.py` lines 29-34): 404 when `task_id not in tasks`;
otherwise `tasks[task_id].update(updated_task.dict())` overwrites `title`,
`description`, `completed` in place (the stored `"id"` key is not in
`updated_task.dict()`, so it survives) and the updated record is returned. -/
def update_task (s : Store) (task_id : Nat) (updated_task : TaskIn) :
    Except String (TaskRecord × Store) :=
  match dictLookup s.tasks task_id with
  | none => .error "Task not found"
  | some old =>
    let merged : TaskRecord :=
      { old with
        title := updated_task.title
        description := updated_task.description
        completed := updated_task.completedVal }
    .ok (merged, { s with tasks := dictInsert s.tasks task_id merged })

/-- `delete_task` (`src/main.py` lines 36-40): 404 when `task_id not in tasks`;
otherwise `tasks.pop(task_id)` removes and returns the record. -/
def delete_task (s : Store) (task_id : Nat) :
    Except String (TaskRecord × Store) :=
  match dictLookup s.tasks task_id with
  | none => .error "Task not found"
  | some r => .ok (r, { s with tasks := dictPop s.tasks task_id })

/-- A client request against the store. -/
inductive Op where
  | create (t : TaskIn)
  | listOp
  | update (id : Nat) (t : TaskIn)
  | delete (id : Nat)
deriving DecidableEq, Repr

/-- The store state after a fallible handler: its new state on success; on
failure the handler raised before any mutation, so the old state survives. -/
def stateAfter (s : Store) (res : Except String (TaskRecord × Store)) : Store :=
  match res with
  | .ok (_, s') => s'
  | .error _ => s

/-- The state after one request. -/
def applyOp (s : Store) (op : Op) : Store :=
  match op with
  | .create t => (create_task s t).2
  | .listOp => s
  | .update i t => stateAfter s (update_task s i t)
  | .delete i => stateAfter s (delete_task s i)

/-- The state after a sequence of requests. -/
def runOps (s : Store) (ops : List Op) : Store :=
  ops.foldl applyOp s

/-- How many of the requests are creates. -/
def numCreates : List Op → Nat
  | [] => 0
  | Op.create _ :: rest => numCreates rest + 1
  | Op.listOp :: rest => numCreates rest
  | Op.update _ _ :: rest => numCreates rest
  | Op.delete _ :: rest => numCreates rest

/-- The ids handed out by the create calls of a request sequence, in order. -/
def assignedIds (s : Store) : List Op → List Nat
  | [] => []
  | op :: rest =>
    match op with
    | Op.create t => (create_task s t).1.id :: assignedIds (applyOp s op) rest
    | _ => assignedIds (applyOp s op) rest

/-- Whether a request is a create. -/
def isCreate : Op → Bool
  | Op.create _ => true
  | _ => false

/-- The concrete scenario of the spec (§8): create `A`, create `B` with
`completed = true`, then delete task 1. -/
def demoOps : List Op :=
  [Op.create ⟨"A", "d1", none⟩, Op.create ⟨"B", "d2", some true⟩, Op.delete 1]

/-- The store reached by the spec scenario: only task 2 remains, counter at 3. -/
def demoStore : Store := runOps Store.init demoOps

/-- The record stored under id 2 in `demoStore`. -/
def demoTask2 : TaskRecord := ⟨2, "B", "d2", true⟩

/-- The update body of the spec scenario: `completed` omitted. -/
def demoIn : TaskIn := ⟨"B2", "d2", none⟩

/-! ### Helper lemmas about the dict operations -/

lemma find?_map_replace (m : List (Nat × TaskRecord)) (k : Nat) (v : TaskRecord)
    (h : m.any (fun p => p.1 == k) = true) :
    (m.map (fun p => if p.1 == k then (k, v) else p)).find? (fun p => p.1 == k)
      = some (k, v) := by
  induction m with
  | nil => simp at h
  | cons q rest ih =>
    by_cases hq : q.1 == k
    · rw [List.map_cons, if_pos hq, List.find?_cons_of_pos _ (by simp)]
    · simp only [List.any_cons, hq, Bool.false_or] at h
      rw [List.map_cons, if_neg hq,
        List.find?_cons_of_neg (p := fun r : Nat × TaskRecord => r.1 == k) _ hq]
      exact ih h

lemma find?_append_fresh (m : List (Nat × TaskRecord)) (k : Nat) (v : TaskRecord)
    (h : m.any (fun p => p.1 == k) = false) :
    (m ++ [(k, v)]).find? (fun p => p.1 == k) = some (k, v) := by
  induction m with
  | nil => simp [List.find?]
  | cons q rest ih =>
    simp only [List.any_cons, Bool.or_eq_false_iff] at h
    simp [List.find?, h.1, ih h.2]

lemma dictLookup_dictInsert_self (m : List (Nat × TaskRecord)) (k : Nat) (v : TaskRecord) :
    dictLookup (dictInsert m k v) k = some v := by
  unfold dictLookup dictInsert
  cases hb : m.any (fun p => p.1 == k) with
  | false =>
    rw [if_neg (by simp), find?_append_fresh m k v hb]
    rfl
  | true =>
    rw [if_pos rfl, find?_map_replace m k v hb]
    rfl

lemma dictLookup_dictPop_self (m : List (Nat × TaskRecord)) (k : Nat) :
    dictLookup (dictPop m k) k = none := by
  unfold dictLookup dictPop
  induction m with
  | nil => rfl
  | cons q rest ih =>
    by_cases hq : q.1 == k
    · rw [List.filter_cons, if_neg (by simp [bne, hq])]
      exact ih
    · rw [List.filter_cons, if_pos (by simp [bne, hq]),
        List.find?_cons_of_neg (p := fun r : Nat × TaskRecord => r.1 == k) _ hq]
      exact ih

lemma dictLookup_some_mem {m : List (Nat × TaskRecord)} {k : Nat} {v : TaskRecord}
    (h : dictLookup m k = some v) : (k, v) ∈ m := by
  unfold dictLookup at h
  cases hf : m.find? (fun p => p.1 == k) with
  | none => rw [hf] at h; simp at h
  | some q =>
    rw [hf] at h
    simp only [Option.map_some'] at h
    have hmem := List.mem_of_find?_eq_some hf
    have hpred := List.find?_some hf
    have hk : q.1 = k := by simpa using hpred
    cases q with
    | mk a b =>
      cases hk
      cases h
      exact hmem

lemma snd_mem_dictInsert (m : List (Nat × TaskRecord)) (k : Nat) (v : TaskRecord) :
    v ∈ (dictInsert m k v).map (fun p => p.2) := by
  unfold dictInsert
  by_cases h : m.any (fun p => p.1 == k)
  · rw [if_pos h]
    obtain ⟨q, hq, hqk⟩ := List.any_eq_true.mp h
    refine List.mem_map.mpr ⟨(k, v), List.mem_map.mpr ⟨q, hq, ?_⟩, rfl⟩
    simp [hqk]
  · rw [if_neg h]
    simp

lemma keysMatch_dictInsert {m : List (Nat × TaskRecord)} {k : Nat} {v : TaskRecord}
    (hm : ∀ p ∈ m, p.1 = p.2.id) (hv : v.id = k) :
    ∀ p ∈ dictInsert m k v, p.1 = p.2.id := by
  intro p hp
  unfold dictInsert at hp
  split at hp
  · obtain ⟨q, hq, hpq⟩ := List.mem_map.mp hp
    by_cases hqk : q.1 == k
    · rw [if_pos hqk] at hpq
      rw [← hpq]
      exact hv.symm
    · rw [if_neg hqk] at hpq
      rw [← hpq]
      exact hm q hq
  · rcases List.mem_append.mp hp with h1 | h2
    · exact hm p h1
    · rcases List.mem_singleton.mp h2 with rfl
      exact hv.symm

/-! ### Counter evolution -/

lemma update_task_ok_counter {s : Store} {i : Nat} {t : TaskIn} {r : TaskRecord} {s' : Store}
    (h : update_task s i t = Except.ok (r, s')) :
    s'.task_id_counter = s.task_id_counter := by
  unfold update_task at h
  cases hl : dictLookup s.tasks i with
  | none => rw [hl] at h; exact absurd h (by simp)
  | some old =>
    rw [hl] at h
    simp only [Except.ok.injEq, Prod.mk.injEq] at h
    rw [← h.2]

lemma delete_task_ok_counter {s : Store} {i : Nat} {r : TaskRecord} {s' : Store}
    (h : delete_task s i = Except.ok (r, s')) :
    s'.task_id_counter = s.task_id_counter := by
  unfold delete_task at h
  cases hl : dictLookup s.tasks i with
  | none => rw [hl] at h; exact absurd h (by simp)
  | some old =>
    rw [hl] at h
    simp only [Except.ok.injEq, Prod.mk.injEq] at h
    rw [← h.2]

lemma applyOp_task_id_counter (s : Store) (op : Op) :
    (applyOp s op).task_id_counter
      = s.task_id_counter + (if isCreate op then 1 else 0) := by
  cases op with
  | create t => rfl
  | listOp => rfl
  | update i t =>
    show (stateAfter s (update_task s i t)).task_id_counter = s.task_id_counter
    cases h : update_task s i t with
    | ok pair =>
      cases pair with
      | mk r s' => exact update_task_ok_counter h
    | error e => rfl
  | delete i =>
    show (stateAfter s (delete_task s i)).task_id_counter = s.task_id_counter
    cases h : delete_task s i with
    | ok pair =>
      cases pair with
      | mk r s' => exact delete_task_ok_counter h
    | error e => rfl

lemma numCreates_cons (op : Op) (rest : List Op) :
    numCreates (op :: rest) = numCreates rest + (if isCreate op then 1 else 0) := by
  cases op <;> rfl

lemma runOps_task_id_counter (s : Store) (ops : List Op) :
    (runOps s ops).task_id_counter = s.task_id_counter + numCreates ops := by
  induction ops generalizing s with
  | nil => rfl
  | cons op rest ih =>
    show (runOps (applyOp s op) rest).task_id_counter = _
    rw [ih, applyOp_task_id_counter, numCreates_cons]
    omega

lemma assignedIds_eq_range' (s : Store) (ops : List Op) :
    assignedIds s ops = List.range' s.task_id_counter (numCreates ops) := by
  induction ops generalizing s with
  | nil => rfl
  | cons op rest ih =>
    cases op with
    | create t =>
      show s.task_id_counter :: assignedIds (applyOp s (Op.create t)) rest = _
      rw [ih, numCreates_cons]
      have hc : (applyOp s (Op.create t)).task_id_counter = s.task_id_counter + 1 := rfl
      rw [hc]
      simp [List.range'_succ, isCreate]
    | listOp =>
      show assignedIds (applyOp s Op.listOp) rest = _
      rw [ih]
      rfl
    | update i t =>
      show assignedIds (applyOp s (Op.update i t)) rest = _
      rw [ih, applyOp_task_id_counter]
      rfl
    | delete i =>
      show assignedIds (applyOp s (Op.delete i)) rest = _
      rw [ih, applyOp_task_id_counter]
      rfl

/-! ### Shapes of successful update/delete -/

lemma update_task_ok_shape {s : Store} {i : Nat} {t : TaskIn} {r : TaskRecord} {s' : Store}
    (h : update_task s i t = Except.ok (r, s')) :
    ∃ old, dictLookup s.tasks i = some old ∧
      r = { old with
            title := t.title
            description := t.description
            completed := t.completedVal } ∧
      s' = { s with tasks := dictInsert s.tasks i r } := by
  unfold update_task at h
  cases hl : dictLookup s.tasks i with
  | none => rw [hl] at h; exact absurd h (by simp)
  | some old =>
    rw [hl] at h
    simp only [Except.ok.injEq, Prod.mk.injEq] at h
    exact ⟨old, rfl, h.1.symm, by rw [← h.2, ← h.1]⟩

lemma delete_task_ok_shape {s : Store} {i : Nat} {r : TaskRecord} {s' : Store}
    (h : delete_task s i = Except.ok (r, s')) :
    dictLookup s.tasks i = some r ∧ s' = { s with tasks := dictPop s.tasks i } := by
  unfold delete_task at h
  cases hl : dictLookup s.tasks i with
  | none => rw [hl] at h; exact absurd h (by simp)
  | some v =>
    rw [hl] at h
    simp only [Except.ok.injEq, Prod.mk.injEq] at h
    exact ⟨by rw [h.1], h.2.symm⟩


/-! ### The key = id invariant -/

lemma mem_of_mem_dictPop {m : List (Nat × TaskRecord)} {k : Nat} {p : Nat × TaskRecord}
    (h : p ∈ dictPop m k) : p ∈ m :=
  (List.mem_filter.mp h).1

lemma keysMatch_applyOp {s : Store} (hm : ∀ p ∈ s.tasks, p.1 = p.2.id) (op : Op) :
    ∀ p ∈ (applyOp s op).tasks, p.1 = p.2.id := by
  cases op with
  | create t => exact keysMatch_dictInsert hm rfl
  | listOp => exact hm
  | update i t =>
    show ∀ p ∈ (stateAfter s (update_task s i t)).tasks, p.1 = p.2.id
    cases h : update_task s i t with
    | error e => exact hm
    | ok pair =>
      cases pair with
      | mk r s' =>
        obtain ⟨old, hl, hr, hs'⟩ := update_task_ok_shape h
        have hoi : i = old.id := hm _ (dictLookup_some_mem hl)
        subst hs'
        refine keysMatch_dictInsert hm ?_
        rw [hr]
        exact hoi.symm
  | delete i =>
    show ∀ p ∈ (stateAfter s (delete_task s i)).tasks, p.1 = p.2.id
    cases h : delete_task s i with
    | error e => exact hm
    | ok pair =>
      cases pair with
      | mk r s' =>
        obtain ⟨hl, hs'⟩ := delete_task_ok_shape h
        subst hs'
        exact fun p hp => hm p (mem_of_mem_dictPop hp)

lemma keysMatch_runOps {s : Store} (hm : ∀ p ∈ s.tasks, p.1 = p.2.id) (ops : List Op) :
    ∀ p ∈ (runOps s ops).tasks, p.1 = p.2.id := by
  induction ops generalizing s with
  | nil => exact hm
  | cons op rest ih => exact ih (keysMatch_applyOp hm op)

/-! ### The claims -/

/-- Claim C1: every create call allocates `id = next_id`, increments `next_id`
by exactly 1, inserts the new Task under that id, and returns the newly
created Task including its assigned id, with `completed` defaulting to false
when omitted from the input (`Option.getD false`). -/
theorem create_task_spec (s : Store) (t : TaskIn) :
    (create_task s t).1.id = s.task_id_counter ∧
    (create_task s t).2.task_id_counter = s.task_id_counter + 1 ∧
    dictLookup (create_task s t).2.tasks s.task_id_counter = some (create_task s t).1 ∧
    (create_task s t).1.title = t.title ∧
    (create_task s t).1.description = t.description ∧
    (create_task s t).1.completed = t.completed.getD false :=
  ⟨rfl, rfl, dictLookup_dictInsert_self _ _ _, rfl, rfl, rfl⟩

/-- Claim C2: over any request sequence from the initial store, the ids
assigned by creates are strictly increasing (hence never reused, even after
deletion), and `next_id` stays strictly greater than every id ever issued. -/
theorem assigned_ids_monotone (ops : List Op) :
    List.Pairwise (· < ·) (assignedIds Store.init ops) ∧
    ∀ i ∈ assignedIds Store.init ops, i < (runOps Store.init ops).task_id_counter := by
  constructor
  · rw [assignedIds_eq_range']
    exact List.pairwise_lt_range' _ _
  · intro i hi
    rw [assignedIds_eq_range'] at hi
    rw [runOps_task_id_counter]
    have hmem := List.mem_range'_1.mp hi
    omega

theorem assigned_ids_monotone_witness :
    2 ∈ assignedIds Store.init demoOps ∧
    2 < (runOps Store.init demoOps).task_id_counter :=
  ⟨by decide, (assigned_ids_monotone demoOps).2 2 (by decide)⟩

/-- Claim C3: an update on an existing id replaces `title`, `description` and
`completed` on the stored record, preserves its id, and returns the updated
Task; an omitted `completed` is reset to false (full-replace semantics). -/
theorem update_task_spec (s : Store) (i : Nat) (t : TaskIn) (old : TaskRecord)
    (h : dictLookup s.tasks i = some old) :
    ∃ r s', update_task s i t = Except.ok (r, s') ∧
      r.id = old.id ∧ r.title = t.title ∧ r.description = t.description ∧
      r.completed = t.completed.getD false ∧
      dictLookup s'.tasks i = some r ∧
      s'.task_id_counter = s.task_id_counter := by
  refine ⟨{ old with
            title := t.title
            description := t.description
            completed := t.completedVal },
          { s with tasks :=
              dictInsert s.tasks i ({ old with
                title := t.title, description := t.description,
                completed := t.completedVal }) },
          ?_, rfl, rfl, rfl, rfl, dictLookup_dictInsert_self _ _ _, rfl⟩
  unfold update_task
  rw [h]

theorem update_task_spec_witness :
    dictLookup demoStore.tasks 2 = some demoTask2 ∧
    (∃ r s', update_task demoStore 2 demoIn = Except.ok (r, s') ∧
      r.id = demoTask2.id ∧ r.title = demoIn.title ∧ r.description = demoIn.description ∧
      r.completed = demoIn.completed.getD false ∧
      dictLookup s'.tasks 2 = some r ∧
      s'.task_id_counter = demoStore.task_id_counter) :=
  ⟨by decide, update_task_spec demoStore 2 demoIn demoTask2 (by decide)⟩

/-- Claim C4: an update on an id absent from the mapping fails with NotFound
(the 404 "Task not found") and leaves the store entirely unchanged. -/
theorem update_task_notfound (s : Store) (i : Nat) (t : TaskIn)
    (h : dictLookup s.tasks i = none) :
    update_task s i t = Except.error "Task not found" ∧
    applyOp s (Op.update i t) = s := by
  have hu : update_task s i t = Except.error "Task not found" := by
    unfold update_task
    rw [h]
  refine ⟨hu, ?_⟩
  show stateAfter s (update_task s i t) = s
  rw [hu]
  rfl

theorem update_task_notfound_witness :
    dictLookup demoStore.tasks 99 = none ∧
    (update_task demoStore 99 demoIn = Except.error "Task not found" ∧
     applyOp demoStore (Op.update 99 demoIn) = demoStore) :=
  ⟨by decide, update_task_notfound demoStore 99 demoIn (by decide)⟩

/-- Claim C5: deleting a present id removes the record and returns its value
at the time of deletion, leaves `next_id` unaffected, and a second delete of
the same id fails with NotFound. -/
theorem delete_task_spec (s : Store) (i : Nat) (r : TaskRecord)
    (h : dictLookup s.tasks i = some r) :
    ∃ s', delete_task s i = Except.ok (r, s') ∧
      dictLookup s'.tasks i = none ∧
      s'.task_id_counter = s.task_id_counter ∧
      delete_task s' i = Except.error "Task not found" := by
  refine ⟨{ s with tasks := dictPop s.tasks i },
          ?_, dictLookup_dictPop_self _ _, rfl, ?_⟩
  · unfold delete_task
    rw [h]
  · unfold delete_task
    have hnone : dictLookup (dictPop s.tasks i) i = none := dictLookup_dictPop_self _ _
    simp only [hnone]

theorem delete_task_spec_witness :
    dictLookup demoStore.tasks 2 = some demoTask2 ∧
    (∃ s', delete_task demoStore 2 = Except.ok (demoTask2, s') ∧
      dictLookup s'.tasks 2 = none ∧
      s'.task_id_counter = demoStore.task_id_counter ∧
      delete_task s' 2 = Except.error "Task not found") :=
  ⟨by decide, delete_task_spec demoStore 2 demoTask2 (by decide)⟩

/-- Claim C6: list returns the sequence of all current records in insertion
order (the order of the underlying insertion-ordered mapping), is empty
exactly when the store is empty, and has no side effect on the store. -/
theorem get_tasks_spec (s : Store) :
    get_tasks s = s.tasks.map (fun p => p.2) ∧
    (get_tasks s = [] ↔ s.tasks = []) ∧
    applyOp s Op.listOp = s :=
  ⟨rfl, by simp [get_tasks], rfl⟩

/-- Claim C7: in every state reachable from the initial empty store, every
key of the mapping equals the `id` field of its value. -/
theorem keys_match_reachable (ops : List Op) :
    ∀ p ∈ (runOps Store.init ops).tasks, p.1 = p.2.id :=
  keysMatch_runOps (fun p hp => absurd hp (by simp [Store.init])) ops

theorem keys_match_reachable_witness :
    ((2 : Nat), demoTask2) ∈ (runOps Store.init demoOps).tasks ∧
    (2 : Nat) = demoTask2.id :=
  ⟨by decide, keys_match_reachable demoOps (2, demoTask2) (by decide)⟩

/-- Claim C8: on any store, the record returned by create is contained in the
result of list on the store create returns. -/
theorem create_then_list (s : Store) (t : TaskIn) :
    (create_task s t).1 ∈ get_tasks (create_task s t).2 :=
  snd_mem_dictInsert s.tasks s.task_id_counter _

/-- Claim C9: over any request sequence from the initial store, the n-th
create returns id exactly n: the assigned ids are the consecutive integers
1, 2, 3, … in creation order, whatever updates and deletes intervene. -/
theorem nth_create_id_consecutive (ops : List Op) :
    assignedIds Store.init ops = List.range' 1 (numCreates ops) :=
  assignedIds_eq_range' Store.init ops

end TaskAPI
